import Mathlib

/-!
# Verification of the Vozlia Control admin API

A shallow embedding, in Lean 4, of the settings store, the typed settings
accessors (`services/settings_service.py`) and the email-account
administration endpoints (`control_main.py`) of the `vozila/Front-end`
repository, together with theorems settling the specification claims.

The database session is modelled by explicit state passing: the
`user_settings` table is a list of rows keyed by (user id, key), the
`email_accounts` table is a list of `EmailAccount` rows.  JSON documents
are modelled by the inductive type `Value`; Python dicts by association
lists `Doc`.  A fallible endpoint returns `Except ApiError`.
-/

set_option autoImplicit false

namespace Vozlia

/-- A JSON-like Python value, as stored in `UserSetting.value`. -/
inductive Value where
  | null : Value
  | bool (b : Bool) : Value
  | str (s : String) : Value
  | int (n : Int) : Value
  | list (xs : List Value) : Value
  | obj (fields : List (String × Value)) : Value

/-- A Python dict with string keys: the shape of every settings document. -/
abbrev Doc := List (String × Value)

/-- Python `d.get(k)`: the value at the first occurrence of key `k`, or
`None` when the key is absent. -/
def Doc.get (d : Doc) (k : String) : Option Value :=
  (d.find? (fun p => p.1 == k)).map (fun p => p.2)

/-- Python `s.strip()`: drop leading and trailing whitespace.  Written
over the character list so that it evaluates by kernel reduction (the
library `String.trim` is defined by well-founded recursion on byte
positions and does not reduce). -/
def pyStrip (s : String) : String :=
  String.mk
    (((s.data.dropWhile Char.isWhitespace).reverse.dropWhile
      Char.isWhitespace).reverse)

/-- Python `str(x)` as used by the allowlist cleaning code.  Faithful on
scalars; containers are rendered by a non-empty placeholder (their exact
Python `repr` text is never observable through any claim: the cleaning
code only tests emptiness of the stripped rendering, and `repr` of a
container is never whitespace-only). -/
def Value.pyStr : Value → String
  | .null => "None"
  | .bool true => "True"
  | .bool false => "False"
  | .str s => s
  | .int n => toString n
  | .list _ => "[...]"
  | .obj _ => "{...}"

/-- Python truthiness (`bool(x)`) on a stored value. -/
def Value.truthy : Value → Bool
  | .null => false
  | .bool b => b
  | .str s => !(s == "")
  | .int n => !(n == 0)
  | .list xs => !xs.isEmpty
  | .obj fs => !fs.isEmpty

/-- Users are identified by their row id; nothing in the claims depends on
the user record beyond its identity. -/
abbrev UserId := Nat

/-- A row of the `user_settings` table. -/
structure SettingRow where
  user_id : UserId
  key : String
  value : Value

/-- The `user_settings` table. -/
abbrev SettingsDB := List SettingRow

/-- The text of `DEFAULTS["realtime_prompt_addendum"]["text"]`. -/
def realtimeDefaultText : String :=
  "CALL OPENING RULE (FIRST UTTERANCE ONLY): " ++
  "Greet the caller and introduce yourself as Vozlia in one short sentence. " ++
  "Example: \"Hello, you\x27re speaking with Vozlia — how can I help today?\" " ++
  "Do not repeat the brand intro after the first utterance."

/-- The text of `DEFAULTS["agent_greeting"]["text"]`. -/
def greetingDefaultText : String := "Hello! How can I assist you today?"

/-- The `DEFAULTS` table of `settings_service.py`: the registered default
document per key, `none` for an unregistered key (`DEFAULTS.get(key, ...)`). -/
def DEFAULTS (key : String) : Option Doc :=
  if key == "agent_greeting" then
    some [("text", .str greetingDefaultText)]
  else if key == "gmail_summary_enabled" then
    some [("enabled", .bool true)]
  else if key == "gmail_account_id" then
    some [("account_id", .str "d8c8cd99-c9bc-4e8c-a560-d220782665a1")]
  else if key == "gmail_enabled_accounts" then
    some [("account_ids", .list [])]
  else if key == "realtime_prompt_addendum" then
    some [("text", .str realtimeDefaultText)]
  else none

/-- The row lookup shared by `get_setting` and `set_setting`:
`db.query(UserSetting).filter(user_id == user.id, key == key).first()`. -/
def findSettingRow (db : SettingsDB) (user : UserId) (key : String) :
    Option SettingRow :=
  db.find? (fun r => r.user_id == user && r.key == key)

/-- Embeds `get_setting(db, user, key)`: the stored document when the row exists
and its value is a dict, else the registered default, else `{}`. -/
def get_setting (db : SettingsDB) (user : UserId) (key : String) : Doc :=
  match findSettingRow db user key with
  | some r =>
    match r.value with
    | .obj d => d
    | _ => (DEFAULTS key).getD []
  | none => (DEFAULTS key).getD []

/-- Embeds `set_setting(db, user, key, value)`: upsert of the row for
(user, key); returns the new table and `row.value` (the stored value). -/
def set_setting (db : SettingsDB) (user : UserId) (key : String)
    (value : Doc) : SettingsDB × Doc :=
  match findSettingRow db user key with
  | some _ =>
    (db.map (fun r =>
      if r.user_id == user && r.key == key then
        { r with value := .obj value }
      else r), value)
  | none => (db ++ [⟨user, key, .obj value⟩], value)

/-- Embeds `get_realtime_prompt_addendum`: the trimmed stored text when it is a
non-empty string, else the built-in default text. -/
def get_realtime_prompt_addendum (db : SettingsDB) (user : UserId) : String :=
  match Doc.get (get_setting db user "realtime_prompt_addendum") "text" with
  | some (.str s) => if pyStrip s == "" then realtimeDefaultText else pyStrip s
  | _ => realtimeDefaultText

/-- Embeds `get_agent_greeting`: the trimmed stored text when it is a non-empty
string, else the built-in default text. -/
def get_agent_greeting (db : SettingsDB) (user : UserId) : String :=
  match Doc.get (get_setting db user "agent_greeting") "text" with
  | some (.str s) => if pyStrip s == "" then greetingDefaultText else pyStrip s
  | _ => greetingDefaultText

/-- Embeds `gmail_summary_enabled`: `bool(True if enabled is None else enabled)`. -/
def gmail_summary_enabled (db : SettingsDB) (user : UserId) : Bool :=
  match Doc.get (get_setting db user "gmail_summary_enabled") "enabled" with
  | none => true
  | some .null => true
  | some x => x.truthy

/-- Embeds `get_selected_gmail_account_id`: the trimmed stored `account_id` when
it is a non-empty string, else `None`. -/
def get_selected_gmail_account_id (db : SettingsDB) (user : UserId) :
    Option String :=
  match Doc.get (get_setting db user "gmail_account_id") "account_id" with
  | some (.str s) => if pyStrip s == "" then none else some (pyStrip s)
  | _ => none

/-- The cleaning of an account-id list:
`[str(x).strip() for x in account_ids if str(x).strip()]`. -/
def cleanIds (xs : List Value) : List String :=
  (xs.map (fun x => pyStrip x.pyStr)).filter (fun s => !(s == ""))

/-- Embeds `get_enabled_gmail_account_ids`: `None` when the stored `account_ids`
field is absent or null, the cleaned list when it is a list, `None`
otherwise. -/
def get_enabled_gmail_account_ids (db : SettingsDB) (user : UserId) :
    Option (List String) :=
  match Doc.get (get_setting db user "gmail_enabled_accounts") "account_ids" with
  | none => none
  | some .null => none
  | some (.list xs) => some (cleanIds xs)
  | some _ => none

/-- Embeds `set_enabled_gmail_account_ids`: stores the cleaned list under
`gmail_enabled_accounts.account_ids`.  The endpoint validates the body to
`List[str]`, so the input is a list of strings. -/
def set_enabled_gmail_account_ids (db : SettingsDB) (user : UserId)
    (account_ids : List String) : SettingsDB :=
  let cleaned := cleanIds (account_ids.map Value.str)
  (set_setting db user "gmail_enabled_accounts"
    [("account_ids", .list (cleaned.map Value.str))]).1

/-- A row of the `email_accounts` table (`models.EmailAccount`).
Timestamps are modelled as integers. -/
structure EmailAccount where
  id : String
  user_id : UserId
  provider_type : String
  oauth_provider : Option String
  email_address : String
  display_name : Option String
  is_primary : Bool
  is_active : Bool
  imap_host : Option String
  imap_port : Option Int
  imap_ssl : Option Bool
  smtp_host : Option String
  smtp_port : Option Int
  smtp_ssl : Option Bool
  username : Option String
  oauth_access_token : Option String
  oauth_refresh_token : Option String
  oauth_expires_at : Option Int
  password_enc : Option String
  created_at : Int
  updated_at : Int
deriving DecidableEq, Repr

/-- The `email_accounts` table. -/
abbrev AccountsDB := List EmailAccount

/-- The response model `EmailAccountOut`: only non-secret fields. -/
structure EmailAccountOut where
  id : String
  user_id : String
  provider_type : String
  oauth_provider : Option String
  email_address : String
  display_name : Option String
  is_primary : Bool
  is_active : Bool
  imap_host : Option String
  imap_port : Option Int
  imap_ssl : Option Bool
  smtp_host : Option String
  smtp_port : Option Int
  smtp_ssl : Option Bool
  username : Option String
  created_at : Int
  updated_at : Int
deriving DecidableEq, Repr

/-- The request model `EmailAccountPatch`; an absent field is `none`
(`model_dump(exclude_none=True)` drops it). -/
structure EmailAccountPatch where
  is_active : Option Bool := none
  is_primary : Option Bool := none
  display_name : Option String := none
deriving DecidableEq, Repr

/-- Embeds `_to_email_out`: serialization of an account row, omitting the four
secret fields.  The user id is rendered with `str(...)`. -/
def to_email_out (a : EmailAccount) : EmailAccountOut :=
  { id := a.id
    user_id := toString a.user_id
    provider_type := a.provider_type
    oauth_provider := a.oauth_provider
    email_address := a.email_address
    display_name := a.display_name
    is_primary := a.is_primary
    is_active := a.is_active
    imap_host := a.imap_host
    imap_port := a.imap_port
    imap_ssl := a.imap_ssl
    smtp_host := a.smtp_host
    smtp_port := a.smtp_port
    smtp_ssl := a.smtp_ssl
    username := a.username
    created_at := a.created_at
    updated_at := a.updated_at }

/-- The filter `EmailAccount.id == account_id, EmailAccount.user_id == user.id`. -/
def accountMatches (account_id : String) (user : UserId) (a : EmailAccount) :
    Bool :=
  a.id == account_id && a.user_id == user

/-- Stable insertion into a list sorted by `created_at` descending. -/
def insertByCreatedDesc (a : EmailAccount) :
    AccountsDB → AccountsDB
  | [] => [a]
  | b :: bs =>
    if a.created_at ≤ b.created_at then b :: insertByCreatedDesc a bs
    else a :: b :: bs

/-- Embeds `order_by(EmailAccount.created_at.desc())`. -/
def sortByCreatedDesc : AccountsDB → AccountsDB
  | [] => []
  | a :: as => insertByCreatedDesc a (sortByCreatedDesc as)

/-- Embeds `GET /admin/email-accounts`: the user's rows, optionally restricted to
the active ones, newest first, serialized without secrets. -/
def list_email_accounts (db : AccountsDB) (user : UserId)
    (include_inactive : Bool) : List EmailAccountOut :=
  (sortByCreatedDesc
    (if include_inactive then db.filter (fun a => a.user_id == user)
     else (db.filter (fun a => a.user_id == user)).filter
        (fun a => a.is_active))).map to_email_out

/-- An HTTP-level failure of an email-account endpoint (auth and body
validation happen in the framework layer, outside these handlers). -/
inductive ApiError where
  | notFound : ApiError
deriving DecidableEq, Repr

/-- The non-primary part of a patch: `display_name` (trimmed, an empty
result stored as null) and `is_active`, each applied only when present. -/
def applyBasicPatch (p : EmailAccountPatch) (a : EmailAccount) :
    EmailAccount :=
  let a1 :=
    match p.display_name with
    | some s =>
      { a with display_name := if pyStrip s == "" then none else some (pyStrip s) }
    | none => a
  match p.is_active with
  | some b => { a1 with is_active := b }
  | none => a1

/-- Embeds `PATCH /admin/email-accounts/\x7baccount_id\x7d`: 404 when no row matches
(id, user); otherwise applies the present fields, and when
`is_primary is True` demotes every other row of the user before
promoting this one, all in one transaction; returns the new table and the
serialized updated row. -/
def patch_email_account (db : AccountsDB) (user : UserId)
    (account_id : String) (p : EmailAccountPatch) :
    Except ApiError (AccountsDB × EmailAccountOut) :=
  match db.find? (accountMatches account_id user) with
  | none => .error .notFound
  | some a =>
    let a1 := applyBasicPatch p a
    if p.is_primary == some true then
      let demoted := db.map (fun x =>
        if x.user_id == user && !(x.id == a.id) then
          { x with is_primary := false }
        else x)
      let a2 := { a1 with is_primary := true }
      .ok (demoted.map (fun x =>
        if accountMatches a.id a.user_id x then a2 else x), to_email_out a2)
    else
      .ok (db.map (fun x =>
        if accountMatches a.id a.user_id x then a1 else x), to_email_out a1)

/-- The body of a `DELETE` response: its `status` and `hard` members. -/
structure DeleteStatus where
  status : String
  hard : Bool
deriving DecidableEq, Repr

/-- The soft-disconnect transform: deactivate, un-primary, wipe the four
secret fields; every other field is kept. -/
def softDisconnect (a : EmailAccount) : EmailAccount :=
  { a with
    is_active := false
    is_primary := false
    oauth_access_token := none
    oauth_refresh_token := none
    oauth_expires_at := none
    password_enc := none }

/-- Embeds `DELETE /admin/email-accounts/\x7baccount_id\x7d?hard=...`: 404 when no row
matches (id, user); `hard=true` removes the row, otherwise the row is
soft-disconnected in place. -/
def delete_email_account (db : AccountsDB) (user : UserId)
    (account_id : String) (hard : Bool) :
    Except ApiError (AccountsDB × DeleteStatus) :=
  match db.find? (accountMatches account_id user) with
  | none => .error .notFound
  | some a =>
    if hard then
      .ok (db.filter (fun x => !(accountMatches a.id a.user_id x)),
        ⟨"deleted", true⟩)
    else
      .ok (db.map (fun x =>
        if accountMatches a.id a.user_id x then softDisconnect x else x),
        ⟨"disconnected", false⟩)

/-- Replace the four secret fields of an account; two accounts differ
only in the secret fields exactly when one is a `withSecrets` image of
the other. -/
def withSecrets (a : EmailAccount) (t r : Option String) (e : Option Int)
    (pw : Option String) : EmailAccount :=
  { a with
    oauth_access_token := t
    oauth_refresh_token := r
    oauth_expires_at := e
    password_enc := pw }

/-- A sample primary account, used by the closed witness theorems. -/
def acctA : EmailAccount :=
  { id := "A", user_id := 1, provider_type := "oauth",
    oauth_provider := some "google", email_address := "a@example.com",
    display_name := some "Acc A", is_primary := true, is_active := true,
    imap_host := none, imap_port := none, imap_ssl := none,
    smtp_host := none, smtp_port := none, smtp_ssl := none,
    username := none, oauth_access_token := some "tok",
    oauth_refresh_token := some "ref", oauth_expires_at := some 5,
    password_enc := some "enc", created_at := 1, updated_at := 1 }

/-- A sample non-primary account of the same user. -/
def acctB : EmailAccount :=
  { acctA with id := "B", is_primary := false, created_at := 2 }

/-- The first sample account after losing the primary flag. -/
def acctADemoted : EmailAccount := { acctA with is_primary := false }

/-- The second sample account after gaining the primary flag. -/
def acctBPromoted : EmailAccount := { acctB with is_primary := true }

/-- A sample patch carrying a padded display name and a deactivation. -/
def patchW : EmailAccountPatch :=
  { is_active := some false, display_name := some "  New Name  " }

/-!
## Helper lemmas about the settings store
-/

/-- The update pass of `set_setting` relocates the stored value of every
row of (u, k) and touches nothing else, so the row lookup after the pass
is the original lookup with the value replaced. -/
theorem findSettingRow_map_set (db : SettingsDB) (u : UserId) (k : String)
    (w : Value) :
    findSettingRow (db.map (fun r =>
        if r.user_id == u && r.key == k then { r with value := w } else r)) u k
      = (findSettingRow db u k).map (fun r => { r with value := w }) := by
  induction db with
  | nil => rfl
  | cons r rs ih =>
    simp only [findSettingRow, List.map_cons] at *
    by_cases h : (r.user_id == u && r.key == k) = true
    · rw [if_pos h]
      rw [show List.find? (fun r => r.user_id == u && r.key == k) (r :: rs)
            = some r from List.find?_cons_of_pos _ h]
      exact List.find?_cons_of_pos _ h
    · rw [if_neg h]
      rw [show List.find? (fun r => r.user_id == u && r.key == k) (r :: rs)
            = List.find? (fun r => r.user_id == u && r.key == k) rs
          from List.find?_cons_of_neg _ h]
      rw [← ih]
      exact List.find?_cons_of_neg _ h

/-- A `set_setting` always returns the document it was given. -/
theorem set_setting_snd (db : SettingsDB) (u : UserId) (k : String)
    (v : Doc) : (set_setting db u k v).2 = v := by
  unfold set_setting
  cases findSettingRow db u k <;> rfl

/-- After a `set_setting`, the row for (u, k) exists and holds the
document that was stored. -/
theorem findSettingRow_set (db : SettingsDB) (u : UserId) (k : String)
    (v : Doc) :
    ∃ r, findSettingRow (set_setting db u k v).1 u k = some r ∧
      r.value = Value.obj v := by
  unfold set_setting
  cases hf : findSettingRow db u k with
  | none =>
    refine ⟨⟨u, k, Value.obj v⟩, ?_, rfl⟩
    unfold findSettingRow at hf ⊢
    rw [List.find?_append, hf]
    simp
  | some r =>
    refine ⟨{ r with value := Value.obj v }, ?_, rfl⟩
    rw [findSettingRow_map_set, hf]
    rfl

/-- The value read by `get_setting` when the row lookup succeeds. -/
theorem get_setting_eq_of_row (db : SettingsDB) (u : UserId) (k : String)
    (r : SettingRow) (hr : findSettingRow db u k = some r) :
    get_setting db u k
      = match r.value with
        | Value.obj d => d
        | _ => (DEFAULTS k).getD [] := by
  unfold get_setting
  rw [hr]

/-- The value read by `get_setting` when the row lookup fails. -/
theorem get_setting_eq_of_no_row (db : SettingsDB) (u : UserId) (k : String)
    (hr : findSettingRow db u k = none) :
    get_setting db u k = (DEFAULTS k).getD [] := by
  unfold get_setting
  rw [hr]

/-- Reading back immediately after a write yields the written document. -/
theorem get_setting_set_same (db : SettingsDB) (u : UserId) (k : String)
    (v : Doc) : get_setting (set_setting db u k v).1 u k = v := by
  obtain ⟨r, hr, hv⟩ := findSettingRow_set db u k v
  rw [get_setting_eq_of_row _ _ _ _ hr, hv]

/-- Every row for (u, k) in the table produced by `set_setting` holds the
stored document. -/
theorem set_setting_value_mem (db : SettingsDB) (u : UserId) (k : String)
    (v : Doc) :
    ∀ r ∈ (set_setting db u k v).1, (r.user_id == u && r.key == k) = true →
      r.value = Value.obj v := by
  unfold set_setting
  cases hf : findSettingRow db u k with
  | none =>
    intro r hr hp
    rcases List.mem_append.mp hr with h | h
    · exact absurd hp (by simpa using List.find?_eq_none.mp hf r h)
    · simp only [List.mem_singleton] at h
      subst h
      rfl
  | some r0 =>
    intro r hr hp
    obtain ⟨y, hy, rfl⟩ := List.mem_map.mp hr
    by_cases h : (y.user_id == u && y.key == k) = true
    · rw [if_pos h]
    · rw [if_neg h] at hp ⊢
      exact absurd hp h

/-!
## Claims about the settings store and the typed accessors
-/

/-- **C6**: `get_setting` returns the stored document when the row is
present with a dict value, else the registered default, else the empty
document (so it is total, even on an unknown key); `set_setting` upserts
the row for (user, key) — appending a fresh row when absent, overwriting
in place (same row count) when present — and returns the stored value,
which a subsequent `get_setting` reads back. -/
theorem get_set_contract (db : SettingsDB) (u : UserId) (k : String)
    (v : Doc) :
    (∀ r d, findSettingRow db u k = some r → r.value = Value.obj d →
      get_setting db u k = d) ∧
    (∀ r, findSettingRow db u k = some r → (∀ d, r.value ≠ Value.obj d) →
      get_setting db u k = (DEFAULTS k).getD []) ∧
    (findSettingRow db u k = none →
      get_setting db u k = (DEFAULTS k).getD []) ∧
    (findSettingRow db u k = none →
      (set_setting db u k v).1 = db ++ [⟨u, k, Value.obj v⟩]) ∧
    (∀ r, findSettingRow db u k = some r →
      ((set_setting db u k v).1).length = db.length) ∧
    (set_setting db u k v).2 = v ∧
    get_setting (set_setting db u k v).1 u k = v := by
  refine ⟨?_, ?_, ?_, ?_, ?_, set_setting_snd db u k v,
    get_setting_set_same db u k v⟩
  · intro r d hr hv
    rw [get_setting_eq_of_row _ _ _ _ hr, hv]
  · intro r hr hv
    rw [get_setting_eq_of_row _ _ _ _ hr]
    cases hval : r.value with
    | obj d => exact absurd hval (hv d)
    | null => rfl
    | bool b => rfl
    | str s => rfl
    | int n => rfl
    | list xs => rfl
  · exact get_setting_eq_of_no_row db u k
  · intro h
    unfold set_setting
    rw [h]
  · intro r hr
    unfold set_setting
    rw [hr]
    simp

/-- A closed instantiation of `get_set_contract`, each hypothesis
discharged at a concrete table. -/
theorem get_set_contract_witness :
    get_setting [⟨0, "k", Value.obj [("a", Value.int 1)]⟩] 0 "k"
      = [("a", Value.int 1)] ∧
    get_setting [⟨0, "k", Value.int 7⟩] 0 "k" = [] ∧
    get_setting [] 0 "unknown-key" = [] ∧
    (set_setting [] 0 "k" [("a", Value.int 1)]).1
      = [⟨0, "k", Value.obj [("a", Value.int 1)]⟩] ∧
    ((set_setting [⟨0, "k", Value.int 7⟩] 0 "k" []).1).length = 1 ∧
    (set_setting [] 0 "k" [("a", Value.int 1)]).2 = [("a", Value.int 1)] ∧
    get_setting (set_setting [] 0 "k" [("a", Value.int 1)]).1 0 "k"
      = [("a", Value.int 1)] := by
  obtain ⟨h1, h2, h3, h4, h5, h6, h7⟩ :=
    get_set_contract [⟨0, "k", Value.obj [("a", Value.int 1)]⟩] 0 "k"
      [("a", Value.int 1)]
  refine ⟨h1 _ _ rfl rfl, ?_, ?_, ?_, ?_, ?_, ?_⟩
  · obtain ⟨h1', h2', _⟩ := get_set_contract [⟨0, "k", Value.int 7⟩] 0 "k" []
    exact h2' _ rfl (fun d h => by cases h)
  · exact (get_set_contract [] 0 "unknown-key" []).2.2.1 rfl
  · exact (get_set_contract [] 0 "k" [("a", Value.int 1)]).2.2.2.1 rfl
  · exact (get_set_contract [⟨0, "k", Value.int 7⟩] 0 "k" []).2.2.2.2.1 _ rfl
  · exact (get_set_contract [] 0 "k" [("a", Value.int 1)]).2.2.2.2.2.1
  · exact (get_set_contract [] 0 "k" [("a", Value.int 1)]).2.2.2.2.2.2

/-- Writing a document that every (u, k) row already holds changes
nothing: the update pass is the identity. -/
theorem set_setting_eq_self (db : SettingsDB) (u : UserId) (k : String)
    (v : Doc) (r0 : SettingRow) (hf : findSettingRow db u k = some r0)
    (hall : ∀ r ∈ db, (r.user_id == u && r.key == k) = true →
      r.value = Value.obj v) :
    (set_setting db u k v).1 = db := by
  unfold set_setting
  rw [hf]
  have hid : ∀ r ∈ db,
      (if (r.user_id == u && r.key == k) = true then
        { r with value := Value.obj v } else r) = r := by
    intro r hrmem
    by_cases h : (r.user_id == u && r.key == k) = true
    · rw [if_pos h]
      have hv := hall r hrmem h
      cases r
      simp only [SettingRow.mk.injEq, true_and]
      exact hv.symm
    · rw [if_neg h]
  simpa using List.map_congr_left hid

/-- **C8**: every typed setter writes through `set_setting`, and
`set_setting` is idempotent — repeating a write of the same document
leaves the table exactly as after the first write and returns the same
value both times.  Instantiating `k` and `v` with `agent_greeting` and
the trimmed text gives the greeting setter of `PATCH /admin/settings`. -/
theorem set_setting_idempotent (db : SettingsDB) (u : UserId) (k : String)
    (v : Doc) :
    (set_setting (set_setting db u k v).1 u k v).1
      = (set_setting db u k v).1 ∧
    (set_setting (set_setting db u k v).1 u k v).2
      = (set_setting db u k v).2 := by
  obtain ⟨r0, hr, _⟩ := findSettingRow_set db u k v
  exact ⟨set_setting_eq_self _ u k v r0 hr (set_setting_value_mem db u k v),
    by rw [set_setting_snd, set_setting_snd]⟩

/-- **C2** counterexample: the claim says a user that has never set the
allowlist reads `null`; on the code an absent row makes `get_setting`
substitute the registered default document, whose `account_ids` is `[]`,
so the read returns `some []`, not `none`. -/
theorem allowlist_unset_counterexample :
    get_enabled_gmail_account_ids [] 0 = some [] ∧
    get_enabled_gmail_account_ids [] 0 ≠ none := by
  refine ⟨rfl, ?_⟩
  intro h
  rw [show get_enabled_gmail_account_ids [] 0 = some [] from rfl] at h
  exact Option.noConfusion h

/-- **C2** amended: setting the allowlist to `[]` and then reading
returns `some []`; and for a user that has never set it, reading also
returns `some []` (the default document supplies `account_ids = []`),
never `none`. -/
theorem allowlist_semantics (db : SettingsDB) (u : UserId) :
    get_enabled_gmail_account_ids (set_enabled_gmail_account_ids db u []) u
      = some [] ∧
    (findSettingRow db u "gmail_enabled_accounts" = none →
      get_enabled_gmail_account_ids db u = some []) := by
  constructor
  · have h1 : get_setting (set_enabled_gmail_account_ids db u [])
        u "gmail_enabled_accounts" = [("account_ids", Value.list [])] :=
      get_setting_set_same db u "gmail_enabled_accounts" _
    simp only [get_enabled_gmail_account_ids, h1]
    rfl
  · intro h
    simp only [get_enabled_gmail_account_ids,
      get_setting_eq_of_no_row _ _ _ h]
    rfl

/-- A closed instantiation of `allowlist_semantics` on the empty table. -/
theorem allowlist_semantics_witness :
    get_enabled_gmail_account_ids (set_enabled_gmail_account_ids [] 0 []) 0
      = some [] ∧
    get_enabled_gmail_account_ids [] 0 = some [] :=
  ⟨(allowlist_semantics [] 0).1, (allowlist_semantics [] 0).2 rfl⟩

/-- **C3** counterexample: the claim says the selected-account accessor
returns `null` for a user that never set it; on the code an absent row
makes `get_setting` substitute the registered default document, so the
accessor returns the default UUID constant. -/
theorem selected_account_unset_counterexample :
    get_selected_gmail_account_id [] 0
      = some "d8c8cd99-c9bc-4e8c-a560-d220782665a1" ∧
    get_selected_gmail_account_id [] 0 ≠ none := by
  refine ⟨rfl, ?_⟩
  intro h
  rw [show get_selected_gmail_account_id [] 0
      = some "d8c8cd99-c9bc-4e8c-a560-d220782665a1" from rfl] at h
  exact Option.noConfusion h

/-- **C3** amended: for a user that has never set the selected Gmail
account id, the accessor returns the default UUID constant (via the
`DEFAULTS` fallback of `get_setting`); when a row stores a dict with an
`account_id` string, it returns the trimmed value if non-empty, else
`none`. -/
theorem selected_account_semantics (db : SettingsDB) (u : UserId) :
    (findSettingRow db u "gmail_account_id" = none →
      get_selected_gmail_account_id db u
        = some "d8c8cd99-c9bc-4e8c-a560-d220782665a1") ∧
    (∀ r s, findSettingRow db u "gmail_account_id" = some r →
      r.value = Value.obj [("account_id", Value.str s)] →
      get_selected_gmail_account_id db u
        = if pyStrip s = "" then none else some (pyStrip s)) := by
  constructor
  · intro h
    simp only [get_selected_gmail_account_id,
      get_setting_eq_of_no_row _ _ _ h]
    rfl
  · intro r s hr hv
    have h1 : get_setting db u "gmail_account_id"
        = [("account_id", Value.str s)] := by
      rw [get_setting_eq_of_row _ _ _ _ hr, hv]
    simp only [get_selected_gmail_account_id, h1, Doc.get]
    by_cases hs : pyStrip s = ""
    · simp [hs]
    · simp [hs]

/-- A closed instantiation of `selected_account_semantics`: an absent
row yields the default UUID; a stored whitespace id yields `none`; a
stored padded id yields the trimmed id. -/
theorem selected_account_semantics_witness :
    get_selected_gmail_account_id [] 0
      = some "d8c8cd99-c9bc-4e8c-a560-d220782665a1" ∧
    get_selected_gmail_account_id
      [⟨0, "gmail_account_id", Value.obj [("account_id", Value.str "  ")]⟩] 0
      = none ∧
    get_selected_gmail_account_id
      [⟨0, "gmail_account_id", Value.obj [("account_id", Value.str " x ")]⟩] 0
      = some "x" := by
  refine ⟨(selected_account_semantics [] 0).1 rfl, ?_, ?_⟩
  · have := (selected_account_semantics
      [⟨0, "gmail_account_id", Value.obj [("account_id", Value.str "  ")]⟩]
      0).2 _ "  " rfl rfl
    simpa using this
  · have := (selected_account_semantics
      [⟨0, "gmail_account_id", Value.obj [("account_id", Value.str " x ")]⟩]
      0).2 _ " x " rfl rfl
    simpa using this

/-- **C10**: the greeting and realtime-prompt-addendum getters never
return the empty string — whatever is stored (no row, a non-dict value,
a missing or non-string `text`, whitespace-only text), the result is the
trimmed stored text, non-empty by the guard, or the non-empty built-in
default. -/
theorem greeting_addendum_nonempty (db : SettingsDB) (u : UserId) :
    get_agent_greeting db u ≠ "" ∧
    get_realtime_prompt_addendum db u ≠ "" := by
  constructor
  · unfold get_agent_greeting
    split
    · split
      · decide
      · next hne => simpa using hne
    · decide
  · unfold get_realtime_prompt_addendum
    split
    · split
      · decide
      · next hne => simpa using hne
    · decide

/-!
## Helper lemmas about the email-account operations
-/

/-- Insertion keeps exactly the inserted element and the old elements. -/
theorem mem_insertByCreatedDesc {x a : EmailAccount} {l : AccountsDB} :
    x ∈ insertByCreatedDesc a l ↔ x = a ∨ x ∈ l := by
  induction l with
  | nil => simp [insertByCreatedDesc]
  | cons b bs ih =>
    unfold insertByCreatedDesc
    split
    · simp only [List.mem_cons, ih]
      tauto
    · simp only [List.mem_cons]

/-- Sorting keeps exactly the elements of the list. -/
theorem mem_sortByCreatedDesc {x : EmailAccount} {l : AccountsDB} :
    x ∈ sortByCreatedDesc l ↔ x ∈ l := by
  induction l with
  | nil => simp [sortByCreatedDesc]
  | cons a as ih =>
    unfold sortByCreatedDesc
    rw [mem_insertByCreatedDesc, ih]
    simp

/-- The non-primary patch pass never touches identity, ownership, the
primary flag or the creation time. -/
theorem applyBasicPatch_stable (p : EmailAccountPatch) (a : EmailAccount) :
    (applyBasicPatch p a).id = a.id ∧
    (applyBasicPatch p a).user_id = a.user_id ∧
    (applyBasicPatch p a).is_primary = a.is_primary ∧
    (applyBasicPatch p a).created_at = a.created_at := by
  unfold applyBasicPatch
  cases p.display_name <;> cases p.is_active <;> exact ⟨rfl, rfl, rfl, rfl⟩

/-- Projection facts about `withSecrets`: it only touches the four
secret fields. -/
theorem withSecrets_created_at (a : EmailAccount) (t r : Option String)
    (e : Option Int) (pw : Option String) :
    (withSecrets a t r e pw).created_at = a.created_at := rfl

/-- Sorting commutes with a rewrite of the secret fields. -/
theorem sortByCreatedDesc_map_withSecrets (l : AccountsDB)
    (t r : Option String) (e : Option Int) (pw : Option String) :
    sortByCreatedDesc (l.map (fun x => withSecrets x t r e pw))
      = (sortByCreatedDesc l).map (fun x => withSecrets x t r e pw) := by
  have hins : ∀ (a : EmailAccount) (m : AccountsDB),
      insertByCreatedDesc (withSecrets a t r e pw)
          (m.map (fun x => withSecrets x t r e pw))
        = (insertByCreatedDesc a m).map (fun x => withSecrets x t r e pw) := by
    intro a m
    induction m with
    | nil => rfl
    | cons b bs ih =>
      rw [List.map_cons]
      unfold insertByCreatedDesc
      simp only [withSecrets_created_at]
      split_ifs with hc
      · rw [List.map_cons, ih]
      · simp
  induction l with
  | nil => rfl
  | cons a as ih =>
    rw [List.map_cons]
    unfold sortByCreatedDesc
    rw [ih, hins]

/-- Filtering by a predicate blind to the secret fields commutes with a
rewrite of the secret fields. -/
theorem filter_map_withSecrets (m : AccountsDB) (t r : Option String)
    (e : Option Int) (pw : Option String) (p : EmailAccount → Bool)
    (hp : ∀ x, p (withSecrets x t r e pw) = p x) :
    (m.map (fun x => withSecrets x t r e pw)).filter p
      = (m.filter p).map (fun x => withSecrets x t r e pw) := by
  rw [List.filter_map]
  congr 1
  exact List.filter_congr (fun x _ => hp x)

/-- **C9**: the four secret fields are never serialized.  Two accounts
that differ only in `oauth_access_token`, `oauth_refresh_token`,
`oauth_expires_at` and `password_enc` produce the same serialized
record, and rewriting the secret fields of every row leaves the output
of the list endpoint unchanged. -/
theorem secrets_never_serialized (a : EmailAccount) (t r : Option String)
    (e : Option Int) (pw : Option String) (db : AccountsDB) (u : UserId)
    (inc : Bool) :
    to_email_out (withSecrets a t r e pw) = to_email_out a ∧
    list_email_accounts (db.map (fun x => withSecrets x t r e pw)) u inc
      = list_email_accounts db u inc := by
  refine ⟨rfl, ?_⟩
  have hout : ∀ (m : AccountsDB),
      (sortByCreatedDesc (m.map (fun x => withSecrets x t r e pw))).map
          to_email_out
        = (sortByCreatedDesc m).map to_email_out := by
    intro m
    rw [sortByCreatedDesc_map_withSecrets, List.map_map]
    exact List.map_congr_left (fun x _ => rfl)
  unfold list_email_accounts
  cases inc with
  | true =>
    rw [if_pos rfl, if_pos rfl,
      filter_map_withSecrets db t r e pw (fun a => a.user_id == u)
        (fun x => rfl), hout]
  | false =>
    rw [if_neg (by simp), if_neg (by simp),
      filter_map_withSecrets db t r e pw (fun a => a.user_id == u)
        (fun x => rfl),
      filter_map_withSecrets (db.filter (fun a => a.user_id == u))
        t r e pw (fun a => a.is_active) (fun x => rfl), hout]

/-- **C1**: when a patch sets `is_primary = true` on account B of a user,
the returned record is primary with B's id, and in the resulting table a
row of that user is primary exactly when it is B — every other account of
the user, including a previously primary one, has been demoted in the
same operation. -/
theorem primary_invariant (db : AccountsDB) (user : UserId) (bId : String)
    (p : EmailAccountPatch) (db' : AccountsDB) (out : EmailAccountOut)
    (hp : p.is_primary = some true)
    (h : patch_email_account db user bId p = .ok (db', out)) :
    out.is_primary = true ∧ out.id = bId ∧
    ∀ x ∈ db', x.user_id = user → (x.is_primary = true ↔ x.id = bId) := by
  unfold patch_email_account at h
  cases hf : db.find? (accountMatches bId user) with
  | none =>
    rw [hf] at h
    exact absurd h (by simp)
  | some a =>
    rw [hf] at h
    have hmatch := List.find?_some hf
    rw [accountMatches, Bool.and_eq_true, beq_iff_eq, beq_iff_eq] at hmatch
    obtain ⟨haid, hauser⟩ := hmatch
    simp only [hp, beq_self_eq_true, if_true, Except.ok.injEq,
      Prod.mk.injEq] at h
    obtain ⟨hdb, hout⟩ := h
    subst hdb hout
    obtain ⟨hid1, huser1, _, _⟩ := applyBasicPatch_stable p a
    refine ⟨rfl, ?_, ?_⟩
    · show (applyBasicPatch p a).id = bId
      rw [hid1]
      exact haid
    · intro x hx hxu
      rw [List.map_map] at hx
      obtain ⟨y, hy, hyx⟩ := List.mem_map.mp hx
      by_cases h1 : (y.user_id == user && !(y.id == a.id)) = true
      · have h1' := h1
        rw [Bool.and_eq_true, beq_iff_eq, Bool.not_eq_true', beq_eq_false_iff_ne]
          at h1'
        obtain ⟨hyu, hyne⟩ := h1'
        rw [show (Function.comp
              (fun x => if accountMatches a.id a.user_id x
                then { applyBasicPatch p a with is_primary := true } else x)
              (fun x => if (x.user_id == user && !(x.id == a.id)) = true
                then { x with is_primary := false } else x)) y
            = if accountMatches a.id a.user_id
                (if (y.user_id == user && !(y.id == a.id)) = true
                  then { y with is_primary := false } else y)
              then { applyBasicPatch p a with is_primary := true }
              else (if (y.user_id == user && !(y.id == a.id)) = true
                then { y with is_primary := false } else y) from rfl,
          if_pos h1] at hyx
        have hcond : accountMatches a.id a.user_id
            ({ y with is_primary := false }) = false := by
          rw [accountMatches]
          simp only [Bool.and_eq_false_iff, beq_eq_false_iff_ne]
          exact Or.inl (by simpa using hyne)
        rw [if_neg (by simp [hcond])] at hyx
        subst hyx
        constructor
        · intro hfalse
          exact absurd hfalse (by simp)
        · intro hids
          exact absurd hids (by simpa [haid] using hyne)
      · rw [show (Function.comp
              (fun x => if accountMatches a.id a.user_id x
                then { applyBasicPatch p a with is_primary := true } else x)
              (fun x => if (x.user_id == user && !(x.id == a.id)) = true
                then { x with is_primary := false } else x)) y
            = if accountMatches a.id a.user_id
                (if (y.user_id == user && !(y.id == a.id)) = true
                  then { y with is_primary := false } else y)
              then { applyBasicPatch p a with is_primary := true }
              else (if (y.user_id == user && !(y.id == a.id)) = true
                then { y with is_primary := false } else y) from rfl,
          if_neg h1] at hyx
        by_cases h2 : accountMatches a.id a.user_id y = true
        · rw [if_pos h2] at hyx
          subst hyx
          constructor
          · intro _
            show (applyBasicPatch p a).id = bId
            rw [hid1, haid]
          · intro _
            rfl
        · rw [if_neg h2] at hyx
          subst hyx
          rw [accountMatches, Bool.and_eq_true] at h2
          rw [Bool.and_eq_true] at h1
          exfalso
          have hyu : (y.user_id == user) = true := by simpa using hxu
          rcases not_and_or.mp h2 with hbad | hbad
          · apply h1
            refine ⟨hyu, ?_⟩
            simp only [Bool.not_eq_true', beq_eq_false_iff_ne]
            intro hcontra
            exact hbad (by simpa using hcontra)
          · exact hbad (by rw [hauser]; exact hyu)

/-- The `display_name` produced by the non-primary patch pass. -/
theorem applyBasicPatch_display (p : EmailAccountPatch) (a : EmailAccount) :
    (applyBasicPatch p a).display_name
      = match p.display_name with
        | some s => if pyStrip s == "" then none else some (pyStrip s)
        | none => a.display_name := by
  unfold applyBasicPatch
  cases p.display_name <;> cases p.is_active <;> rfl

/-- The `is_active` produced by the non-primary patch pass. -/
theorem applyBasicPatch_active (p : EmailAccountPatch) (a : EmailAccount) :
    (applyBasicPatch p a).is_active
      = match p.is_active with
        | some b => b
        | none => a.is_active := by
  unfold applyBasicPatch
  cases p.display_name <;> cases p.is_active <;> rfl

/-- The non-primary patch pass keeps the email address. -/
theorem applyBasicPatch_email (p : EmailAccountPatch) (a : EmailAccount) :
    (applyBasicPatch p a).email_address = a.email_address := by
  unfold applyBasicPatch
  cases p.display_name <;> cases p.is_active <;> rfl

/-- **C7** counterexample: the claim says every field present in the body
is applied, but a patch carrying `is_primary = false` on a primary
account is ignored — the handler reacts only to
`data.get("is_primary") is True` — so the account stays primary and the
returned record still shows `is_primary = true`. -/
theorem patch_primary_false_ignored :
    acctA.is_primary = true ∧
    patch_email_account [acctA] 1 "A" { is_primary := some false }
      = .ok ([acctA], to_email_out acctA) ∧
    (to_email_out acctA).is_primary = true :=
  ⟨rfl, rfl, rfl⟩

/-- **C7** amended: a patch applies `display_name` (trimmed, an empty
result stored as null) and `is_active` exactly when present and leaves
absent fields unchanged, but applies `is_primary` only when it is
`true`: with `is_primary` absent or `false` the primary flag is
untouched.  Rows not matching (id, user) are carried over unchanged. -/
theorem patch_applies_present_fields (db : AccountsDB) (user : UserId)
    (aid : String) (p : EmailAccountPatch) (a : EmailAccount)
    (db' : AccountsDB) (out : EmailAccountOut)
    (hf : db.find? (accountMatches aid user) = some a)
    (hnp : p.is_primary ≠ some true)
    (h : patch_email_account db user aid p = .ok (db', out)) :
    out = to_email_out (applyBasicPatch p a) ∧
    (∀ s, p.display_name = some s →
      out.display_name
        = if pyStrip s == "" then none else some (pyStrip s)) ∧
    (p.display_name = none → out.display_name = a.display_name) ∧
    (∀ b, p.is_active = some b → out.is_active = b) ∧
    (p.is_active = none → out.is_active = a.is_active) ∧
    out.is_primary = a.is_primary ∧
    out.id = a.id ∧
    out.email_address = a.email_address ∧
    out.created_at = a.created_at ∧
    (∀ x ∈ db, accountMatches aid user x = false → x ∈ db') := by
  have hb : (p.is_primary == some true) = false := by
    cases hq : p.is_primary with
    | none => rfl
    | some b =>
      cases b with
      | true => exact absurd hq hnp
      | false => rfl
  unfold patch_email_account at h
  rw [hf] at h
  have hm := List.find?_some hf
  rw [accountMatches, Bool.and_eq_true, beq_iff_eq, beq_iff_eq] at hm
  obtain ⟨haid, hauser⟩ := hm
  simp only [hb, Bool.false_eq_true, if_false, Except.ok.injEq,
    Prod.mk.injEq] at h
  obtain ⟨hdb, hout⟩ := h
  subst hdb hout
  refine ⟨rfl, ?_, ?_, ?_, ?_, ?_, ?_, ?_, ?_, ?_⟩
  · intro s hs
    show (applyBasicPatch p a).display_name = _
    rw [applyBasicPatch_display, hs]
  · intro hs
    show (applyBasicPatch p a).display_name = _
    rw [applyBasicPatch_display, hs]
  · intro b hb2
    show (applyBasicPatch p a).is_active = b
    rw [applyBasicPatch_active, hb2]
  · intro hb2
    show (applyBasicPatch p a).is_active = _
    rw [applyBasicPatch_active, hb2]
  · exact (applyBasicPatch_stable p a).2.2.1
  · exact (applyBasicPatch_stable p a).1
  · exact applyBasicPatch_email p a
  · exact (applyBasicPatch_stable p a).2.2.2
  · intro x hx hxm
    rw [List.mem_map]
    refine ⟨x, hx, ?_⟩
    show (if accountMatches a.id a.user_id x = true
      then applyBasicPatch p a else x) = x
    rw [if_neg]
    rw [haid, hauser]
    simp [hxm]

/-- **C4**: a soft disconnect of an existing account keeps the row —
transformed by `softDisconnect`, which deactivates it, clears the
primary flag and nulls the four secret fields while keeping every other
field — keeps all other rows, returns status disconnected/not-hard, and
the active-only list excludes the account afterwards. -/
theorem soft_disconnect_contract (db : AccountsDB) (user : UserId)
    (aid : String) (a : EmailAccount) (db' : AccountsDB)
    (st : DeleteStatus)
    (hf : db.find? (accountMatches aid user) = some a)
    (h : delete_email_account db user aid false = .ok (db', st)) :
    st = ⟨"disconnected", false⟩ ∧
    softDisconnect a ∈ db' ∧
    (∀ x ∈ db, accountMatches aid user x = true → softDisconnect x ∈ db') ∧
    (∀ x ∈ db, accountMatches aid user x = false → x ∈ db') ∧
    db'.length = db.length ∧
    (softDisconnect a).is_active = false ∧
    (softDisconnect a).is_primary = false ∧
    (softDisconnect a).oauth_access_token = none ∧
    (softDisconnect a).oauth_refresh_token = none ∧
    (softDisconnect a).oauth_expires_at = none ∧
    (softDisconnect a).password_enc = none ∧
    (softDisconnect a).id = a.id ∧
    (softDisconnect a).user_id = a.user_id ∧
    (softDisconnect a).email_address = a.email_address ∧
    (softDisconnect a).display_name = a.display_name ∧
    (softDisconnect a).created_at = a.created_at ∧
    (∀ o ∈ list_email_accounts db' user false, o.id ≠ aid) := by
  have hma := List.find?_some hf
  have hm := hma
  rw [accountMatches, Bool.and_eq_true, beq_iff_eq, beq_iff_eq] at hm
  obtain ⟨haid, hauser⟩ := hm
  unfold delete_email_account at h
  rw [hf] at h
  simp only [Bool.false_eq_true, if_false, Except.ok.injEq,
    Prod.mk.injEq] at h
  obtain ⟨hdb, hst⟩ := h
  subst hdb
  have hkeep : ∀ x ∈ db, accountMatches aid user x = true →
      softDisconnect x ∈ db.map (fun x =>
        if accountMatches a.id a.user_id x = true
          then softDisconnect x else x) := by
    intro x hx hxm
    rw [List.mem_map]
    refine ⟨x, hx, ?_⟩
    rw [if_pos]
    rw [haid, hauser]
    exact hxm
  have hother : ∀ x ∈ db, accountMatches aid user x = false →
      x ∈ db.map (fun x =>
        if accountMatches a.id a.user_id x = true
          then softDisconnect x else x) := by
    intro x hx hxm
    rw [List.mem_map]
    refine ⟨x, hx, ?_⟩
    rw [if_neg]
    rw [haid, hauser]
    simp [hxm]
  refine ⟨hst.symm, hkeep a (List.mem_of_find?_eq_some hf) hma,
    hkeep, hother, List.length_map db _, rfl, rfl, rfl, rfl, rfl, rfl,
    rfl, rfl, rfl, rfl, rfl, ?_⟩
  intro o ho
  unfold list_email_accounts at ho
  rw [if_neg (by simp)] at ho
  obtain ⟨y, hy, rfl⟩ := List.mem_map.mp ho
  rw [mem_sortByCreatedDesc] at hy
  have hy2 := List.mem_filter.mp hy
  obtain ⟨hy3, hyact⟩ := hy2
  have hy4 := List.mem_filter.mp hy3
  obtain ⟨hy5, hyu⟩ := hy4
  obtain ⟨z, hz, hzy⟩ := List.mem_map.mp hy5
  show y.id ≠ aid
  intro hyid
  by_cases hc : accountMatches a.id a.user_id z = true
  · rw [if_pos hc] at hzy
    subst hzy
    exact absurd hyact (by simp [softDisconnect])
  · rw [if_neg hc] at hzy
    subst hzy
    apply hc
    rw [accountMatches, Bool.and_eq_true, beq_iff_eq, beq_iff_eq]
    exact ⟨by rw [hyid, haid], by rw [hauser]; simpa using hyu⟩

/-- The row lookup of the account endpoints fails exactly when no row of
the table carries that id for that user. -/
theorem find_account_none_iff (db : AccountsDB) (user : UserId)
    (aid : String) :
    db.find? (accountMatches aid user) = none
      ↔ ∀ x ∈ db, ¬(x.id = aid ∧ x.user_id = user) := by
  rw [List.find?_eq_none]
  constructor
  · intro h x hx
    have hx2 := h x hx
    rw [accountMatches, Bool.and_eq_true, beq_iff_eq, beq_iff_eq] at hx2
    exact hx2
  · intro h x hx
    rw [accountMatches, Bool.and_eq_true, beq_iff_eq, beq_iff_eq]
    exact h x hx

/-- The patch endpoint reports NotFound exactly when no account with
that id belongs to the user. -/
theorem patch_error_iff (db : AccountsDB) (user : UserId) (aid : String)
    (p : EmailAccountPatch) :
    patch_email_account db user aid p = .error .notFound
      ↔ ∀ x ∈ db, ¬(x.id = aid ∧ x.user_id = user) := by
  rw [← find_account_none_iff]
  unfold patch_email_account
  cases hf : db.find? (accountMatches aid user) with
  | none => simp
  | some a =>
    constructor
    · intro h
      exfalso
      by_cases hc : (p.is_primary == some true) = true
      · simp only [hc, if_true] at h
        exact Except.noConfusion h
      · rw [Bool.not_eq_true] at hc
        simp only [hc, Bool.false_eq_true, if_false] at h
        exact Except.noConfusion h
    · intro h
      exact Option.noConfusion h

/-- The delete endpoint reports NotFound exactly when no account with
that id belongs to the user, for both modes. -/
theorem delete_error_iff (db : AccountsDB) (user : UserId) (aid : String)
    (hard : Bool) :
    delete_email_account db user aid hard = .error .notFound
      ↔ ∀ x ∈ db, ¬(x.id = aid ∧ x.user_id = user) := by
  rw [← find_account_none_iff]
  unfold delete_email_account
  cases hf : db.find? (accountMatches aid user) with
  | none => simp
  | some a =>
    constructor
    · intro h
      exfalso
      by_cases hc : hard = true
      · simp only [hc, if_true] at h
        exact Except.noConfusion h
      · rw [Bool.not_eq_true] at hc
        simp only [hc, Bool.false_eq_true, if_false] at h
        exact Except.noConfusion h
    · intro h
      exact Option.noConfusion h

/-- **C5**: patch and delete fail with NotFound exactly when no account
with that id belongs to the user; a hard delete of an existing account
removes the row, returns status deleted/hard, and afterwards every patch
or delete of that id reports NotFound. -/
theorem notfound_and_hard_delete (db : AccountsDB) (user : UserId)
    (aid : String) :
    (∀ p, patch_email_account db user aid p = .error .notFound ↔
      ∀ x ∈ db, ¬(x.id = aid ∧ x.user_id = user)) ∧
    (∀ hard, delete_email_account db user aid hard = .error .notFound ↔
      ∀ x ∈ db, ¬(x.id = aid ∧ x.user_id = user)) ∧
    (∀ db' st, delete_email_account db user aid true = .ok (db', st) →
      st = ⟨"deleted", true⟩ ∧
      (∀ x ∈ db', ¬(x.id = aid ∧ x.user_id = user)) ∧
      (∀ q, patch_email_account db' user aid q = .error .notFound) ∧
      (∀ b, delete_email_account db' user aid b = .error .notFound)) := by
  refine ⟨fun p => patch_error_iff db user aid p,
    fun hard => delete_error_iff db user aid hard, ?_⟩
  intro db' st h
  unfold delete_email_account at h
  cases hf : db.find? (accountMatches aid user) with
  | none =>
    rw [hf] at h
    exact absurd h (by simp)
  | some a =>
    rw [hf] at h
    have hm := List.find?_some hf
    rw [accountMatches, Bool.and_eq_true, beq_iff_eq, beq_iff_eq] at hm
    obtain ⟨haid, hauser⟩ := hm
    simp only [if_true, Except.ok.injEq, Prod.mk.injEq] at h
    obtain ⟨hdb, hst⟩ := h
    have hclean : ∀ x ∈ db', ¬(x.id = aid ∧ x.user_id = user) := by
      intro x hx hc
      rw [← hdb] at hx
      have hx2 := List.mem_filter.mp hx
      rw [Bool.not_eq_true'] at hx2
      have : accountMatches a.id a.user_id x = true := by
        rw [accountMatches, Bool.and_eq_true, beq_iff_eq, beq_iff_eq]
        exact ⟨by rw [hc.1, haid], by rw [hc.2, hauser]⟩
      rw [hx2.2] at this
      exact Bool.noConfusion this
    exact ⟨hst.symm, hclean,
      fun q => (patch_error_iff db' user aid q).mpr hclean,
      fun b => (delete_error_iff db' user aid b).mpr hclean⟩

/-- A closed instantiation of `primary_invariant`: promoting sample
account B demotes the previously primary A. -/
theorem primary_invariant_witness :
    (to_email_out acctBPromoted).is_primary = true ∧
    (to_email_out acctBPromoted).id = "B" ∧
    (acctADemoted.is_primary = true ↔ acctADemoted.id = "B") ∧
    (acctBPromoted.is_primary = true ↔ acctBPromoted.id = "B") := by
  obtain ⟨h1, h2, h3⟩ :=
    primary_invariant [acctA, acctB] 1 "B" { is_primary := some true }
      [acctADemoted, acctBPromoted] (to_email_out acctBPromoted) rfl rfl
  exact ⟨h1, h2, h3 acctADemoted (by simp) rfl,
    h3 acctBPromoted (by simp) rfl⟩

/-- A closed instantiation of `patch_applies_present_fields`: patching
the sample account with a padded display name and a deactivation. -/
theorem patch_applies_present_fields_witness :
    (to_email_out (applyBasicPatch patchW acctA)).display_name
      = some "New Name" ∧
    (to_email_out (applyBasicPatch patchW acctA)).is_active = false ∧
    (to_email_out (applyBasicPatch patchW acctA)).is_primary
      = acctA.is_primary := by
  obtain ⟨h1, h2, h3, h4, h5, h6, h7, h8, h9, h10⟩ :=
    patch_applies_present_fields [acctA] 1 "A" patchW acctA
      [applyBasicPatch patchW acctA]
      (to_email_out (applyBasicPatch patchW acctA))
      rfl (fun hq => Option.noConfusion hq) rfl
  refine ⟨?_, h4 false rfl, h6⟩
  have hd := h2 "  New Name  " rfl
  rw [hd]
  decide

/-- A closed instantiation of `soft_disconnect_contract` on the sample
table: the soft-disconnected row survives, scrubbed, and the active-only
list shows only the other account. -/
theorem soft_disconnect_witness :
    delete_email_account [acctA, acctB] 1 "A" false
      = .ok ([softDisconnect acctA, acctB], ⟨"disconnected", false⟩) ∧
    softDisconnect acctA ∈ [softDisconnect acctA, acctB] ∧
    (softDisconnect acctA).is_active = false ∧
    (softDisconnect acctA).is_primary = false ∧
    (softDisconnect acctA).password_enc = none ∧
    (softDisconnect acctA).email_address = acctA.email_address ∧
    list_email_accounts [softDisconnect acctA, acctB] 1 false
      = [to_email_out acctB] ∧
    (to_email_out acctB).id ≠ "A" := by
  obtain ⟨h1, h2, h3, h4, h5, h6, h7, h8, h9, h10, h11, h12, h13, h14,
    h15, h16, h17⟩ :=
    soft_disconnect_contract [acctA, acctB] 1 "A" acctA
      [softDisconnect acctA, acctB] ⟨"disconnected", false⟩ rfl rfl
  exact ⟨rfl, h2, h6, h7, h11, h14, by decide,
    h17 (to_email_out acctB) (by decide)⟩

/-- A closed instantiation of `notfound_and_hard_delete`: an unknown id
is NotFound for patch and delete; hard-deleting A leaves only B, after
which A is NotFound for patch and delete. -/
theorem notfound_and_hard_delete_witness :
    patch_email_account [acctA] 1 "Z" {} = .error .notFound ∧
    delete_email_account [acctA] 1 "Z" false = .error .notFound ∧
    delete_email_account [acctA, acctB] 1 "A" true
      = .ok ([acctB], ⟨"deleted", true⟩) ∧
    ¬(acctB.id = "A" ∧ acctB.user_id = 1) ∧
    patch_email_account [acctB] 1 "A" {} = .error .notFound ∧
    delete_email_account [acctB] 1 "A" true = .error .notFound := by
  obtain ⟨hst, hclean, hpatch, hdel⟩ :=
    (notfound_and_hard_delete [acctA, acctB] 1 "A").2.2 [acctB]
      ⟨"deleted", true⟩ rfl
  exact ⟨((notfound_and_hard_delete [acctA] 1 "Z").1 {}).mpr (by decide),
    ((notfound_and_hard_delete [acctA] 1 "Z").2.1 false).mpr (by decide),
    rfl, hclean acctB (by simp), hpatch {}, hdel true⟩

end Vozlia
